import Mathlib

/-!
Verification of the groundstate observable-state container (`Store.ts`) and
its reactive binding adapter (`useStore.ts`) against the repository's
natural-language specification.

The `Store` class is embedded with observer callbacks represented by numeric
identifiers (`Nat`), standing for JavaScript function references: reference
equality of callbacks becomes equality of identifiers.  The body of each
callback is given by an environment `env : Nat -> ObsAct T` describing what
the callback does to the store when invoked (nothing, subscribe another
callback, run an unsubscribe closure, or throw).  Every invocation is
recorded in a log of `(callbackId, nextState, prevState)` triples, so the
notification protocol is fully observable.

`setState` performs `for (let callback of this.callbacks) callback(next, prev)`.
A JavaScript `for...of` over an array uses the array iterator, which keeps a
numeric index, re-checks it against the array's *current* length before each
step, and reads the element at that index from the *live* array.  The loop is
therefore embedded as an index-based loop over the live callback list, with
fuel to account for rounds that callbacks can extend without bound.
-/

namespace Groundstate

/-- An observer callback list entry: the identifier of a callback reference. -/
abbrev CbId := Nat

/-- The `Store<T>` object: the `state` field and the `callbacks` array
(`part_001`), with callbacks as identifiers in registration order. -/
structure Store (T : Type) where
  state : T
  callbacks : List CbId
deriving DecidableEq

/-- `getState()`: pure read of the `state` field. -/
def getState {T : Type} (s : Store T) : T :=
  s.state

/-- `subscribe(callback)` body: `this.callbacks.push(callback)`. -/
def subscribe {T : Type} (j : CbId) (s : Store T) : Store T :=
  ⟨s.state, s.callbacks ++ [j]⟩

/-- One step of the unsubscribe closure's loop body at index `i`:
`if (this.callbacks[i] === callback) this.callbacks.splice(i, 1)`. -/
def unsubStep (j : CbId) (i : Nat) (l : List CbId) : List CbId :=
  if l[i]? = some j then l.eraseIdx i else l

/-- The unsubscribe closure's loop `for (let i = ...; i >= 0; i--)`,
processing index `i` and then counting down to index `0`. -/
def unsubLoop (j : CbId) : Nat → List CbId → List CbId
  | 0, l => unsubStep j 0 l
  | i + 1, l => unsubLoop j i (unsubStep j (i + 1) l)

/-- The function returned by `subscribe(callback)`: iterates the callback
array downward from index `this.callbacks.length - 1`, splicing out every
entry reference-equal to `callback`. -/
def unsubscribeAll {T : Type} (j : CbId) (s : Store T) : Store T :=
  match s.callbacks.length with
  | 0 => s
  | n + 1 => ⟨s.state, unsubLoop j n s.callbacks⟩

/-- The store-visible behaviour of one observer callback when invoked:
it may do nothing to the store, call `subscribe` with some callback,
invoke an unsubscribe closure for some callback, or throw. -/
inductive ObsAct (T : Type) where
  | inert
  | subscribeId (j : CbId)
  | unsubscribeId (j : CbId)
  | throws
deriving DecidableEq

/-- A store together with the log of observer invocations
`(callbackId, nextState, prevState)` made so far. -/
structure World (T : Type) where
  store : Store T
  log : List (CbId × T × T)
deriving DecidableEq

/-- The effect of callback `id`'s body on the store, per the environment:
`none` models the callback throwing. -/
def applyAct {T : Type} (env : Nat → ObsAct T) (id : CbId) (s : Store T) :
    Option (Store T) :=
  match env id with
  | .inert => some s
  | .subscribeId j => some (subscribe j s)
  | .unsubscribeId j => some (unsubscribeAll j s)
  | .throws => none

/-- Result of a notification round: completed, aborted by a thrown
exception, or out of fuel (the real loop can be extended without bound by
callbacks that keep subscribing). -/
inductive Outcome (T : Type) where
  | ok (w : World T)
  | thrown (w : World T)
  | fuelOut (w : World T)
deriving DecidableEq

/-- The world carried by an outcome. -/
def Outcome.world {T : Type} : Outcome T → World T
  | .ok w => w
  | .thrown w => w
  | .fuelOut w => w

/-- The notification loop `for (let callback of this.callbacks)
callback(nextState, prevState)`: index-based iteration of the live
callback array, bounds-checked against its current length at each step.
Each invocation is logged before its store effect is applied; a throwing
callback aborts the loop. -/
def runCallbacks {T : Type} (env : Nat → ObsAct T) (next prev : T) :
    Nat → Nat → World T → Outcome T
  | 0, i, w =>
    match w.store.callbacks[i]? with
    | none => .ok w
    | some _ => .fuelOut w
  | fuel + 1, i, w =>
    match w.store.callbacks[i]? with
    | none => .ok w
    | some id =>
      let w1 : World T := ⟨w.store, w.log ++ [(id, next, prev)]⟩
      match applyAct env id w1.store with
      | some s1 => runCallbacks env next prev fuel (i + 1) ⟨s1, w1.log⟩
      | none => .thrown w1

/-- The `setState` argument: either a plain value or an updater function
(the `update instanceof Function` dispatch is analysed separately on the
dynamic value model `JVal`). -/
abbrev Upd (T : Type) := T ⊕ (T → T)

/-- `update instanceof Function ? update(this.state) : update`. -/
def computeNext {T : Type} (s : T) : Upd T → T
  | .inl v => v
  | .inr f => f s

/-- `setState(update)`: computes `nextState` from the still-unchanged
`this.state`, captures `prevState`, assigns `this.state = nextState`,
then runs the notification loop from index `0`. -/
def setState {T : Type} (env : Nat → ObsAct T) (fuel : Nat) (update : Upd T)
    (w : World T) : Outcome T :=
  let prevState := w.store.state
  let nextState := computeNext w.store.state update
  runCallbacks env nextState prevState fuel 0 ⟨⟨nextState, w.store.callbacks⟩, w.log⟩

/-- The downward splice loop, having processed indices `i, i-1, ..., 0`,
filters the first `i + 1` positions and leaves the rest untouched. -/
lemma unsubLoop_eq (j : CbId) :
    ∀ (i : Nat) (l : List CbId),
      unsubLoop j i l = (l.take (i + 1)).filter (· != j) ++ l.drop (i + 1) := by
  intro i
  induction i with
  | zero =>
    intro l
    match l with
    | [] => simp [unsubLoop, unsubStep]
    | a :: t =>
      by_cases ha : a = j
      · simp [unsubLoop, unsubStep, ha]
      · simp [unsubLoop, unsubStep, ha]
  | succ i ih =>
    intro l
    show unsubLoop j i (unsubStep j (i + 1) l) = _
    match h : l[i + 1]? with
    | none =>
      have hstep : unsubStep j (i + 1) l = l := by
        simp [unsubStep, h]
      have hlen : l.length ≤ i + 1 := by
        simpa using List.getElem?_eq_none_iff.mp h
      rw [hstep, ih l, List.take_of_length_le hlen, List.drop_eq_nil_of_le hlen,
        List.take_of_length_le (show l.length ≤ i + 1 + 1 by omega),
        List.drop_eq_nil_of_le (show l.length ≤ i + 1 + 1 by omega)]
    | some a =>
      obtain ⟨hlt, hget⟩ := List.getElem?_eq_some.mp h
      by_cases ha : a = j
      · have hstep : unsubStep j (i + 1) l = l.eraseIdx (i + 1) := by
          simp [unsubStep, h, ha]
        rw [hstep, ih]
        have he : l.eraseIdx (i + 1) = l.take (i + 1) ++ l.drop (i + 1 + 1) :=
          List.eraseIdx_eq_take_drop_succ l (i + 1)
        have hlt' : (l.take (i + 1)).length = i + 1 := by
          simp only [List.length_take]
          omega
        rw [he, List.take_left' hlt', List.drop_left' hlt']
        have hts : l.take (i + 1 + 1) = l.take (i + 1) ++ [a] := by
          rw [List.take_succ, h]
          rfl
        rw [hts, List.filter_append]
        simp [ha]
      · have hstep : unsubStep j (i + 1) l = l := by
          simp [unsubStep, h, ha]
        rw [hstep, ih]
        have hts : l.take (i + 1 + 1) = l.take (i + 1) ++ [a] := by
          rw [List.take_succ, h]
          rfl
        have hds : l.drop (i + 1) = a :: l.drop (i + 1 + 1) := by
          rw [List.drop_eq_getElem_cons hlt, hget]
        rw [hts, List.filter_append, hds]
        simp [ha]

/-- Net effect of the unsubscribe closure on the callback array: every
entry reference-equal to the unsubscribed callback is removed, in one pass. -/
lemma unsubscribeAll_callbacks {T : Type} (j : CbId) (s : Store T) :
    (unsubscribeAll j s).callbacks = s.callbacks.filter (· != j) := by
  unfold unsubscribeAll
  split
  · next h =>
    have : s.callbacks = [] := List.length_eq_zero.mp h
    simp [this]
  · next n h =>
    show unsubLoop j n s.callbacks = _
    rw [unsubLoop_eq]
    have h1 : s.callbacks.take (n + 1) = s.callbacks :=
      List.take_of_length_le (by omega)
    have h2 : s.callbacks.drop (n + 1) = [] :=
      List.drop_eq_nil_of_le (by omega)
    simp [h1, h2]

/-- The unsubscribe closure never touches the `state` field. -/
lemma unsubscribeAll_state {T : Type} (j : CbId) (s : Store T) :
    (unsubscribeAll j s).state = s.state := by
  unfold unsubscribeAll
  split <;> rfl

/-- A callback body that does not throw never changes the `state` field:
it can only push to or splice the callback array. -/
lemma applyAct_state {T : Type} (env : Nat → ObsAct T) (id : CbId)
    (s s1 : Store T) (h : applyAct env id s = some s1) : s1.state = s.state := by
  unfold applyAct at h
  match henv : env id with
  | .inert => rw [henv] at h; cases h; rfl
  | .subscribeId j => rw [henv] at h; cases h; rfl
  | .unsubscribeId j => rw [henv] at h; cases h; exact unsubscribeAll_state j s
  | .throws => rw [henv] at h; cases h

/-- The notification loop never changes the `state` field (observer bodies
in this model do not reenter `setState`). -/
lemma runCallbacks_world_state {T : Type} (env : Nat → ObsAct T) (next prev : T) :
    ∀ (fuel i : Nat) (w : World T),
      ((runCallbacks env next prev fuel i w).world).store.state = w.store.state := by
  intro fuel
  induction fuel with
  | zero =>
    intro i w
    unfold runCallbacks
    match h : w.store.callbacks[i]? with
    | none => simp [h, Outcome.world]
    | some id => simp [h, Outcome.world]
  | succ fuel ih =>
    intro i w
    unfold runCallbacks
    match h : w.store.callbacks[i]? with
    | none => simp [h, Outcome.world]
    | some id =>
      simp only [h]
      match ha : applyAct env id w.store with
      | some s1 =>
        simp only [ha]
        rw [ih]
        exact applyAct_state env id _ _ ha
      | none => simp [ha, Outcome.world]

/-- When every currently registered callback body is inert, the loop from
index `i` completes, leaves the store unchanged, and appends one log entry
`(id, next, prev)` per remaining callback, in order. -/
lemma runCallbacks_inert {T : Type} (env : Nat → ObsAct T) (next prev : T) :
    ∀ (fuel i : Nat) (w : World T),
      (∀ id ∈ w.store.callbacks, env id = .inert) →
      w.store.callbacks.length ≤ fuel + i →
      runCallbacks env next prev fuel i w =
        .ok ⟨w.store, w.log ++ (w.store.callbacks.drop i).map (fun id => (id, next, prev))⟩ := by
  intro fuel
  induction fuel with
  | zero =>
    intro i w hin hlen
    have h : w.store.callbacks[i]? = none :=
      List.getElem?_eq_none_iff.mpr (by omega)
    have hd : w.store.callbacks.drop i = [] :=
      List.drop_eq_nil_of_le (by omega)
    unfold runCallbacks
    simp [h, hd]
  | succ fuel ih =>
    intro i w hin hlen
    unfold runCallbacks
    match h : w.store.callbacks[i]? with
    | none =>
      have hge : w.store.callbacks.length ≤ i := by
        simpa using List.getElem?_eq_none_iff.mp h
      have hd : w.store.callbacks.drop i = [] := List.drop_eq_nil_of_le hge
      simp [hd]
    | some id =>
      obtain ⟨hlt, hget⟩ := List.getElem?_eq_some.mp h
      have hmem : id ∈ w.store.callbacks := hget ▸ List.getElem_mem hlt
      have henv : env id = .inert := hin id hmem
      simp only [applyAct, henv]
      rw [ih (i + 1) ⟨w.store, w.log ++ [(id, next, prev)]⟩ hin
        (by show w.store.callbacks.length ≤ fuel + (i + 1); omega)]
      have hd : w.store.callbacks.drop i = id :: w.store.callbacks.drop (i + 1) := by
        rw [List.drop_eq_getElem_cons hlt, hget]
      rw [hd]
      simp

/-- When the callbacks up to some throwing callback are inert, the loop
logs exactly those invocations plus the thrower's and aborts with the
exception; callbacks after the thrower are never invoked. -/
lemma runCallbacks_thrown {T : Type} (env : Nat → ObsAct T) (next prev : T)
    (j : CbId) (hj : env j = .throws) :
    ∀ (pre : List CbId) (fuel i : Nat) (w : World T) (post : List CbId),
      (∀ id ∈ pre, env id = .inert) →
      w.store.callbacks.drop i = pre ++ j :: post →
      pre.length < fuel →
      runCallbacks env next prev fuel i w =
        .thrown ⟨w.store,
          w.log ++ pre.map (fun id => (id, next, prev)) ++ [(j, next, prev)]⟩ := by
  intro pre
  induction pre with
  | nil =>
    intro fuel i w post hin hdrop hlen
    match fuel with
    | fuel + 1 =>
      have h : w.store.callbacks[i]? = some j := by
        have := List.getElem?_drop w.store.callbacks i 0
        rw [hdrop] at this
        simpa using this.symm
      unfold runCallbacks
      simp [h, applyAct, hj]
  | cons a pre ihp =>
    intro fuel i w post hin hdrop hlen
    match fuel with
    | fuel + 1 =>
      have h : w.store.callbacks[i]? = some a := by
        have := List.getElem?_drop w.store.callbacks i 0
        rw [hdrop] at this
        simpa using this.symm
      have henv : env a = .inert := hin a (List.mem_cons_self a pre)
      have hdrop1 : w.store.callbacks.drop (i + 1) = pre ++ j :: post := by
        have h1 : w.store.callbacks.drop (i + 1) =
            (w.store.callbacks.drop i).drop 1 := by
          rw [List.drop_drop]
        rw [h1, hdrop]
        rfl
      unfold runCallbacks
      simp only [h, applyAct, henv]
      rw [ihp fuel (i + 1) ⟨w.store, w.log ++ [(a, next, prev)]⟩ post
        (fun id hid => hin id (List.mem_cons_of_mem a hid)) hdrop1 (by simpa using Nat.lt_of_succ_lt_succ (by simpa using hlen))]
      simp

/-- The unsubscribe closure as a single store equation: state unchanged,
callback list filtered of every occurrence of the unsubscribed callback. -/
lemma unsubscribeAll_eq {T : Type} (j : CbId) (s : Store T) :
    unsubscribeAll j s = ⟨s.state, s.callbacks.filter (· != j)⟩ := by
  have h1 := unsubscribeAll_state j s
  have h2 := unsubscribeAll_callbacks j s
  cases hu : unsubscribeAll j s
  rw [hu] at h1 h2
  simp only at h1 h2
  rw [h1, h2]

/-- Full behaviour of one `setState` call when every registered callback
body is inert: the state is replaced by the computed next state and every
callback is invoked exactly once, in registration order, with the new and
previous states. -/
lemma setState_inert_eq {T : Type} (env : Nat → ObsAct T) (fuel : Nat)
    (update : Upd T) (w : World T)
    (hin : ∀ id ∈ w.store.callbacks, env id = .inert)
    (hfuel : w.store.callbacks.length ≤ fuel) :
    setState env fuel update w =
      .ok ⟨⟨computeNext w.store.state update, w.store.callbacks⟩,
        w.log ++ w.store.callbacks.map
          (fun id => (id, computeNext w.store.state update, w.store.state))⟩ := by
  unfold setState
  rw [runCallbacks_inert env _ _ fuel 0
    ⟨⟨computeNext w.store.state update, w.store.callbacks⟩, w.log⟩ hin
    (by show w.store.callbacks.length ≤ fuel + 0; omega)]
  simp

/-- C2: with state `s` and `n` registered observers, `setState(update)`
computes `nextState` (applying `update` to `s` when it is callable, taking
it as the value otherwise), captures `prevState = s`, assigns the state,
and invokes each of the `n` observers exactly once, in registration order,
with `(nextState, prevState)`; afterwards `getState()` returns `nextState`.
Stated for observers whose bodies do not alter the subscription list and do
not throw (those cases are settled by the snapshot and exception claims). -/
theorem setState_notifies_each_in_order {T : Type} (env : Nat → ObsAct T)
    (fuel : Nat) (update : Upd T) (w : World T)
    (hin : ∀ id ∈ w.store.callbacks, env id = .inert)
    (hfuel : w.store.callbacks.length ≤ fuel) :
    setState env fuel update w =
      .ok ⟨⟨computeNext w.store.state update, w.store.callbacks⟩,
        w.log ++ w.store.callbacks.map
          (fun id => (id, computeNext w.store.state update, w.store.state))⟩ :=
  setState_inert_eq env fuel update w hin hfuel

/-- Witness for C2: two observers on a store holding `10`; `setState(2)`
logs both invocations in order with `(2, 10)` and the state becomes `2`. -/
theorem setState_notifies_each_in_order_witness :
    (∀ id ∈ ([0, 1] : List CbId), (fun _ => ObsAct.inert : Nat → ObsAct Int) id = .inert) ∧
    ([0, 1] : List CbId).length ≤ 2 ∧
    setState (fun _ => ObsAct.inert : Nat → ObsAct Int) 2 (.inl 2) ⟨⟨10, [0, 1]⟩, []⟩ =
      .ok ⟨⟨2, [0, 1]⟩, [(0, 2, 10), (1, 2, 10)]⟩ :=
  ⟨by decide, by decide,
    setState_notifies_each_in_order _ 2 (.inl 2) ⟨⟨10, [0, 1]⟩, []⟩ (by decide) (by decide)⟩

/-- C8: notification is unconditional — when the computed next state is
value-equal to the previous state, every observer is still invoked; there
is no equality short-circuit anywhere in `setState`. -/
theorem setState_no_equality_shortcircuit {T : Type} (env : Nat → ObsAct T)
    (fuel : Nat) (update : Upd T) (w : World T)
    (hin : ∀ id ∈ w.store.callbacks, env id = .inert)
    (hfuel : w.store.callbacks.length ≤ fuel)
    (heq : computeNext w.store.state update = w.store.state) :
    setState env fuel update w =
      .ok ⟨⟨w.store.state, w.store.callbacks⟩,
        w.log ++ w.store.callbacks.map
          (fun id => (id, w.store.state, w.store.state))⟩ := by
  have h := setState_inert_eq env fuel update w hin hfuel
  rw [heq] at h
  exact h

/-- Witness for C8: `setState(10)` on a store already holding `10` still
invokes both observers, with `(10, 10)`. -/
theorem setState_no_equality_shortcircuit_witness :
    computeNext (10 : Int) (.inl 10) = 10 ∧
    setState (fun _ => ObsAct.inert : Nat → ObsAct Int) 2 (.inl 10) ⟨⟨10, [0, 1]⟩, []⟩ =
      .ok ⟨⟨10, [0, 1]⟩, [(0, 10, 10), (1, 10, 10)]⟩ :=
  ⟨by decide,
    setState_no_equality_shortcircuit _ 2 (.inl 10) ⟨⟨10, [0, 1]⟩, []⟩
      (by decide) (by decide) (by decide)⟩

/-- C3: invoking an unsubscribe closure for callback `j` removes every
occurrence of `j` from the observer list (however many times it was
registered), a second invocation is a no-op, and a subsequent `setState`
never invokes `j`. -/
theorem unsubscribe_removes_all_occurrences {T : Type} (env : Nat → ObsAct T)
    (fuel : Nat) (update : Upd T) (j : CbId) (s : Store T)
    (hin : ∀ id ∈ s.callbacks, env id = .inert)
    (hfuel : s.callbacks.length ≤ fuel) :
    j ∉ (unsubscribeAll j s).callbacks ∧
    unsubscribeAll j (unsubscribeAll j s) = unsubscribeAll j s ∧
    ∀ e ∈ ((setState env fuel update ⟨unsubscribeAll j s, []⟩).world).log,
      e.1 ≠ j := by
  have hmem : ∀ id ∈ (unsubscribeAll j s).callbacks, id ∈ s.callbacks ∧ id ≠ j := by
    intro id hid
    rw [unsubscribeAll_callbacks] at hid
    have := List.mem_filter.mp hid
    exact ⟨this.1, by simpa using this.2⟩
  refine ⟨?_, ?_, ?_⟩
  · intro hj
    exact (hmem j hj).2 rfl
  · rw [unsubscribeAll_eq j s, unsubscribeAll_eq]
    simp [List.filter_filter]
  · intro e he
    have hrun := setState_inert_eq env fuel update ⟨unsubscribeAll j s, []⟩
      (fun id hid => hin id (hmem id hid).1)
      (le_trans (by rw [unsubscribeAll_callbacks]; exact List.length_filter_le _ _) hfuel)
    rw [hrun] at he
    simp only [Outcome.world, List.nil_append] at he
    obtain ⟨id, hid, heq⟩ := List.mem_map.mp he
    rw [← heq]
    exact (hmem id hid).2

/-- Witness for C3: callback `5` registered twice (among another observer);
one unsubscribe call removes both occurrences, is idempotent, and `5` never
appears in the next round's invocation log. -/
theorem unsubscribe_removes_all_occurrences_witness :
    (5 : CbId) ∉ (unsubscribeAll 5 (⟨0, [5, 1, 5]⟩ : Store Int)).callbacks ∧
    unsubscribeAll 5 (unsubscribeAll 5 (⟨0, [5, 1, 5]⟩ : Store Int)) =
      unsubscribeAll 5 (⟨0, [5, 1, 5]⟩ : Store Int) ∧
    ∀ e ∈ ((setState (fun _ => ObsAct.inert : Nat → ObsAct Int) 3 (.inl 1)
        ⟨unsubscribeAll 5 (⟨0, [5, 1, 5]⟩ : Store Int), []⟩).world).log, e.1 ≠ 5 :=
  unsubscribe_removes_all_occurrences _ 3 (.inl 1) 5 ⟨0, [5, 1, 5]⟩
    (by decide) (by decide)

/-- C4: when an observer throws during notification, the exception
propagates out of `setState` (no catching or wrapping), the observers after
it in the round are never invoked (the log ends at the thrower), and the
store's state keeps the new value, since the assignment preceded
notification. -/
theorem observer_exception_aborts_round {T : Type} (env : Nat → ObsAct T)
    (fuel : Nat) (update : Upd T) (w : World T) (pre post : List CbId) (j : CbId)
    (hcb : w.store.callbacks = pre ++ j :: post)
    (hpre : ∀ id ∈ pre, env id = .inert)
    (hj : env j = .throws)
    (hfuel : pre.length < fuel) :
    setState env fuel update w =
      .thrown ⟨⟨computeNext w.store.state update, w.store.callbacks⟩,
        w.log ++ pre.map (fun id => (id, computeNext w.store.state update, w.store.state))
          ++ [(j, computeNext w.store.state update, w.store.state)]⟩ := by
  unfold setState
  exact runCallbacks_thrown env _ _ j hj pre fuel 0
    ⟨⟨computeNext w.store.state update, w.store.callbacks⟩, w.log⟩ post hpre
    (by show (w.store.callbacks).drop 0 = _; simpa using hcb) hfuel

/-- Witness for C4: observers `[0, 1, 2]` where `1` throws; `setState(7)`
aborts after logging `0` and `1`, observer `2` is never invoked, and the
state is the new value `7`. -/
theorem observer_exception_aborts_round_witness :
    ((⟨⟨1, [0, 1, 2]⟩, []⟩ : World Int).store.callbacks = [0] ++ 1 :: [2]) ∧
    setState (fun id => if id = 1 then .throws else .inert) 3 (.inl 7)
        (⟨⟨1, [0, 1, 2]⟩, []⟩ : World Int) =
      .thrown ⟨⟨7, [0, 1, 2]⟩, [(0, 7, 1), (1, 7, 1)]⟩ :=
  ⟨by decide,
    observer_exception_aborts_round _ 3 (.inl 7) ⟨⟨1, [0, 1, 2]⟩, []⟩ [0] [2] 1
      (by decide) (by decide) (by decide) (by decide)⟩

/-- Observer environment for the snapshot analysis: callback `0`'s body
calls `subscribe` with callback `1`; every other callback is inert. -/
def midroundEnv : Nat → ObsAct Int :=
  fun id => if id = 0 then .subscribeId 1 else .inert

/-- Counterexample to C1: `setState` does not iterate a snapshot of the
observer list.  On a store holding `10` with the single observer `0`,
whose body subscribes observer `1`, the round `setState(5)` invokes the
just-registered observer `1` with `(5, 10)` — the claim says an observer
registered during the round is not invoked during that round. -/
theorem snapshot_claim_counterexample :
    setState midroundEnv 4 (.inl 5) ⟨⟨10, [0]⟩, []⟩ =
      .ok ⟨⟨5, [0, 1]⟩, [(0, 5, 10), (1, 5, 10)]⟩ ∧
    ((1 : CbId), (5 : Int), (10 : Int)) ∈
      ((setState midroundEnv 4 (.inl 5) ⟨⟨10, [0]⟩, []⟩).world).log :=
  ⟨by decide, by decide⟩

/-- C1 amended: notification iterates the live observer array by index
(a JavaScript `for...of` array iterator), so a callback registered via
`subscribe` while the round is in progress lands behind the iteration
index and IS invoked in the same round, after the already-registered
observers; an observer that unregisters itself mid-round has necessarily
already received its invocation at that point. -/
theorem live_iteration_delivers_to_midround_subscriber {T : Type} (a b : CbId)
    (env : Nat → ObsAct T) (ha : env a = .subscribeId b) (hb : env b = .inert)
    (st : T) (update : Upd T) (log : List (CbId × T × T)) :
    setState env 2 update ⟨⟨st, [a]⟩, log⟩ =
      .ok ⟨⟨computeNext st update, [a, b]⟩,
        log ++ [(a, computeNext st update, st), (b, computeNext st update, st)]⟩ := by
  simp [setState, runCallbacks, applyAct, ha, hb, subscribe]

/-- Witness for the amended C1: observer `0` subscribes observer `1`
mid-round; on a store holding `9`, `setState(3)` invokes both, in order. -/
theorem live_iteration_delivers_witness :
    midroundEnv 0 = .subscribeId 1 ∧ midroundEnv 1 = .inert ∧
    setState midroundEnv 2 (.inl 3) ⟨⟨9, [0]⟩, []⟩ =
      .ok ⟨⟨3, [0, 1]⟩, [(0, 3, 9), (1, 3, 9)]⟩ :=
  ⟨by decide, by decide,
    live_iteration_delivers_to_midround_subscriber 0 1 midroundEnv
      (by decide) (by decide) 9 (.inl 3) []⟩

/-- The state field an outcome of `setState` carries is always the
computed next state: the assignment precedes notification and callback
bodies never reassign it in this model. -/
lemma setState_world_state {T : Type} (env : Nat → ObsAct T) (fuel : Nat)
    (update : Upd T) (w : World T) :
    ((setState env fuel update w).world).store.state =
      computeNext w.store.state update := by
  unfold setState
  rw [runCallbacks_world_state]

/-- A dynamic JavaScript value for analysing the `update instanceof
Function` dispatch: a number, or a function reference identified by `fid`
whose behaviour is given by a function environment. -/
inductive JVal where
  | num (n : Int)
  | func (fid : Nat)
deriving DecidableEq

/-- The `update instanceof Function` test. -/
def instanceofFunction : JVal → Bool
  | .num _ => false
  | .func _ => true

/-- The dynamic dispatch in `setState`: a value that is a function is
treated as an updater (applied through the function environment `fenv`);
any other value is stored as given. -/
def dynUpdate (fenv : Nat → JVal → JVal) : JVal → Upd JVal
  | .func fid => .inr (fenv fid)
  | .num n => .inl (.num n)

/-- `setState` over dynamic values, with the `instanceof Function`
dispatch made explicit. -/
def setStateDyn (fenv : Nat → JVal → JVal) (env : Nat → ObsAct JVal)
    (fuel : Nat) (update : JVal) (w : World JVal) : Outcome JVal :=
  setState env fuel (dynUpdate fenv update) w

/-- C10: whenever the argument passed to `setState` is itself a function
value, it is treated as an updater — the stored state becomes the result
of applying it to the current state, never the function value as passed —
while a non-function argument is stored as given. -/
theorem function_value_always_treated_as_updater
    (fenv : Nat → JVal → JVal) (env : Nat → ObsAct JVal) (fuel : Nat)
    (fid : Nat) (w : World JVal) :
    instanceofFunction (.func fid) = true ∧
    ((setStateDyn fenv env fuel (.func fid) w).world).store.state =
      fenv fid w.store.state ∧
    ∀ n : Int, ((setStateDyn fenv env fuel (.num n) w).world).store.state = .num n := by
  refine ⟨rfl, ?_, ?_⟩
  · unfold setStateDyn
    rw [setState_world_state]
    rfl
  · intro n
    unfold setStateDyn
    rw [setState_world_state]
    rfl

/-! ## The reactive binding adapter (`useStore.ts`)

One component instance's hook cells are modelled explicitly: the
`useState(-1)` revision cell (the render token), the `initedRef` flag, the
`useMemo` cache for `store.setState.bind(store)`, and whether the effect's
subscription is active.  `Math.random()` is modelled as an arbitrary draw
sequence `RandSrc`; a ghost list records every value ever passed to
`setRevision`, i.e. every forced render's token. -/

/-- The host's random source: `rand k` is the `k`-th value `Math.random()`
produces.  A faithful source draws within `[0, 1)`. -/
structure RandSrc where
  rand : Nat → Rat

/-- The `shouldUpdate` argument of `useStore`: a boolean or a
`(nextState, prevState) => boolean` predicate. -/
inductive ShouldUpd (T : Type) where
  | bool (b : Bool)
  | pred (f : T → T → Bool)

/-- JavaScript truthiness of `shouldUpdate` (`if (!shouldUpdate) return`):
only `false` is falsy; a function value is always truthy. -/
def ShouldUpd.truthy {T : Type} : ShouldUpd T → Bool
  | .bool b => b
  | .pred _ => true

/-- The identity of a `store.setState.bind(store)` result: the store it is
bound to and the object identity of the `.bind` call's result. -/
structure Bound where
  boundStore : Nat
  ident : Nat
deriving DecidableEq

/-- The hook cells of one component instance using `useStore`. -/
structure HookSt where
  revision : Rat
  revHistory : List Rat
  drawCount : Nat
  inited : Bool
  subscribed : Bool
  memo : Option (Nat × Nat)
  nextBind : Nat
deriving DecidableEq

/-- The cells right after mount: `useState(-1)`, `useRef(false)`, no memo,
no subscription, no draws yet. -/
def mountState : HookSt := ⟨-1, [], 0, false, false, none, 0⟩

/-- `setRevision(Math.random())`: one fresh draw assigned to the render
token cell and recorded in the ghost history of forced renders. -/
def setRevision (src : RandSrc) (hs : HookSt) : HookSt :=
  { hs with
    revision := src.rand hs.drawCount
    revHistory := hs.revHistory ++ [src.rand hs.drawCount]
    drawCount := hs.drawCount + 1 }

/-- The `useEffect` setup body: bail out when `shouldUpdate` is falsy;
otherwise subscribe, and if `initedRef.current` is still false, set it and
force one synchronization render. -/
def effectSetup {T : Type} (src : RandSrc) (su : ShouldUpd T) (hs : HookSt) :
    HookSt :=
  if su.truthy then
    let hs1 : HookSt := { hs with subscribed := true }
    if hs1.inited then hs1 else setRevision src { hs1 with inited := true }
  else hs

/-- The effect cleanup: `unsubscribe(); initedRef.current = false`. -/
def effectCleanup (hs : HookSt) : HookSt :=
  { hs with subscribed := false, inited := false }

/-- The subscription callback body: force a render unless `shouldUpdate`
is a predicate rejecting `(nextState, prevState)`. -/
def subCallback {T : Type} (src : RandSrc) (su : ShouldUpd T) (next prev : T)
    (hs : HookSt) : HookSt :=
  match su with
  | .bool _ => setRevision src hs
  | .pred f => if f next prev then setRevision src hs else hs

/-- Events one hook association can observe: the effect running, its
cleanup running, and a store notification reaching its callback. -/
inductive HookEv (T : Type) where
  | assoc
  | deassoc
  | notify (next prev : T)

/-- One event's effect on the hook cells; a notification only reaches the
callback while the subscription is active. -/
def runEvent {T : Type} (src : RandSrc) (su : ShouldUpd T) :
    HookEv T → HookSt → HookSt
  | .assoc, hs => effectSetup src su hs
  | .deassoc, hs => effectCleanup hs
  | .notify next prev, hs =>
    if hs.subscribed then subCallback src su next prev hs else hs

/-- A sequence of association events. -/
def runEvents {T : Type} (src : RandSrc) (su : ShouldUpd T)
    (evs : List (HookEv T)) (hs : HookSt) : HookSt :=
  evs.foldl (fun h e => runEvent src su e h) hs

/-- One render's `useMemo(() => store.setState.bind(store), [store])`:
a dependency hit returns the cached bound setter unchanged; a miss calls
`.bind` on the current store, producing a fresh object, and caches it. -/
def renderStep (sid : Nat) (hs : HookSt) : HookSt × Bound :=
  match hs.memo with
  | some (dep, id) =>
    if dep = sid then (hs, ⟨sid, id⟩)
    else
      ({ hs with memo := some (sid, hs.nextBind), nextBind := hs.nextBind + 1 },
        ⟨sid, hs.nextBind⟩)
  | none =>
    ({ hs with memo := some (sid, hs.nextBind), nextBind := hs.nextBind + 1 },
      ⟨sid, hs.nextBind⟩)

/-- A JavaScript value offered to the hook in place of a store, described
by which of the three container methods it exposes and with which arity. -/
structure Candidate where
  hasGetState : Bool
  getStateArity : Nat
  hasSetState : Bool
  setStateArity : Nat
  hasSubscribe : Bool
  subscribeArity : Nat
deriving DecidableEq

/-- Modelled from the spec: the source of `isStore.ts` is not among the
provided files; §4.1 describes `isContainer` as a capability/shape check —
the value has a `getState`, `setState` and `subscribe` of matching arity
(0, 1 and 1 respectively), not a nominal-identity check. -/
def isContainerShape (c : Candidate) : Bool :=
  c.hasGetState && c.getStateArity == 0 &&
    c.hasSetState && c.setStateArity == 1 &&
    c.hasSubscribe && c.subscribeArity == 1

/-- The hook's argument: the store of the world under consideration, or
some other value described by its method shape. -/
inductive HookArg where
  | container
  | other (c : Candidate)

/-- The capability check applied to the hook argument: a real store
exposes all three methods with the right arities. -/
def isStoreLike : HookArg → Bool
  | .container => true
  | .other c => isContainerShape c

/-- The adapter's caller-programming-error condition. -/
inductive HookError where
  | invalidArgument
deriving DecidableEq

/-- A component's first `useStore` call plus its effect, against the store
of world `w` (identified as `sid`; the hook's subscription callback is
registered as `oid`): the capability check runs first and throws before
anything else; then the render-time `useMemo` work, then the effect's
subscribe-and-synchronize.  A value that passes the duck-typed check but
is not this world's store proceeds past validation; its later interactions
happen on that foreign object, outside this world. -/
def useStoreMount {T : Type} (arg : HookArg) (src : RandSrc) (su : ShouldUpd T)
    (sid oid : Nat) (hs : HookSt) (w : World T) :
    Except HookError Unit × HookSt × World T :=
  if isStoreLike arg then
    match arg with
    | .container =>
      let hs1 := (renderStep sid hs).1
      let hs2 := effectSetup src su hs1
      let w2 : World T := if su.truthy then ⟨subscribe oid w.store, w.log⟩ else w
      (.ok (), hs2, w2)
    | .other _ => (.ok (), hs, w)
  else (.error .invalidArgument, hs, w)

/-- C5: a value failing the container capability check is rejected
synchronously with the `InvalidArgument` condition, and both the hook
cells and the container world come back exactly as they were — no
subscription was established and no other side effect happened. -/
theorem invalid_argument_rejected_before_side_effects {T : Type}
    (arg : HookArg) (src : RandSrc) (su : ShouldUpd T) (sid oid : Nat)
    (hs : HookSt) (w : World T) (h : isStoreLike arg = false) :
    useStoreMount arg src su sid oid hs w = (.error .invalidArgument, hs, w) := by
  simp [useStoreMount, h]

/-- A value with none of the container methods (a primitive, `undefined`,
or a plain object). -/
def noMethods : Candidate := ⟨false, 0, false, 0, false, 0⟩

/-- Witness for C5: mounting against a method-less value fails with
`InvalidArgument` and leaves the fresh hook cells and the world intact. -/
theorem invalid_argument_rejected_witness :
    isStoreLike (.other noMethods) = false ∧
    useStoreMount (.other noMethods) ⟨fun _ => 0⟩ (.bool true) 0 7 mountState
        (⟨⟨0, []⟩, []⟩ : World Int) =
      (.error .invalidArgument, mountState, ⟨⟨0, []⟩, []⟩) :=
  ⟨by decide,
    invalid_argument_rejected_before_side_effects (.other noMethods) ⟨fun _ => 0⟩
      (.bool true) 0 7 mountState ⟨⟨0, []⟩, []⟩ (by decide)⟩

/-- C6: on the first association since mount or since the key last changed
(`initedRef.current = false`) with truthy responsiveness, the effect
unconditionally forces exactly one render through the token — the history
gains exactly one entry, with no container mutation involved — and sets
the flag; after the cleanup clears the flag, the next association forces
exactly one more synchronization render. -/
theorem first_association_forces_one_sync_render {T : Type} (src : RandSrc)
    (su : ShouldUpd T) (hs : HookSt) (ht : su.truthy = true)
    (hi : hs.inited = false) :
    (effectSetup src su hs).revHistory = hs.revHistory ++ [src.rand hs.drawCount] ∧
    (effectSetup src su hs).inited = true ∧
    (effectCleanup (effectSetup src su hs)).inited = false ∧
    (effectSetup src su (effectCleanup (effectSetup src su hs))).revHistory =
      hs.revHistory ++ [src.rand hs.drawCount, src.rand (hs.drawCount + 1)] := by
  simp [effectSetup, effectCleanup, setRevision, ht, hi]

/-- Witness for C6: a freshly mounted component associating with
responsiveness `true` forces exactly one render, and once more after a
teardown and re-association. -/
theorem first_association_witness :
    ShouldUpd.truthy (T := Int) (.bool true) = true ∧
    mountState.inited = false ∧
    (effectSetup ⟨fun k => (k : Rat) + 2⟩ (.bool (T := Int) true) mountState).revHistory = [2] ∧
    (effectSetup ⟨fun k => (k : Rat) + 2⟩ (.bool (T := Int) true)
        (effectCleanup (effectSetup ⟨fun k => (k : Rat) + 2⟩ (.bool (T := Int) true)
          mountState))).revHistory = [2, 3] := by
  have h := first_association_forces_one_sync_render (⟨fun k => (k : Rat) + 2⟩ : RandSrc)
    (.bool (T := Int) true) mountState (by decide) (by decide)
  refine ⟨by decide, by decide, ?_, ?_⟩
  · rw [h.1]
    norm_num [mountState]
  · rw [h.2.2.2]
    norm_num [mountState]

/-- Ghost invariant: the history of forced-render tokens is exactly the
prefix of the random draw sequence consumed so far. -/
def tokensFromDraws (src : RandSrc) (hs : HookSt) : Prop :=
  hs.revHistory = (List.range hs.drawCount).map src.rand

/-- `setRevision` keeps the token history aligned with the draws. -/
lemma setRevision_tokens (src : RandSrc) (hs : HookSt)
    (h : tokensFromDraws src hs) : tokensFromDraws src (setRevision src hs) := by
  unfold tokensFromDraws at h ⊢
  simp [setRevision, List.range_succ, h]

/-- The effect setup body written without the intermediate binding. -/
lemma effectSetup_eq {T : Type} (src : RandSrc) (su : ShouldUpd T) (hs : HookSt) :
    effectSetup src su hs =
      if su.truthy then
        if hs.inited then { hs with subscribed := true }
        else setRevision src { hs with subscribed := true, inited := true }
      else hs := rfl

/-- The subscription callback keeps the token history aligned with the
draws. -/
lemma subCallback_tokens {T : Type} (src : RandSrc) (su : ShouldUpd T)
    (next prev : T) (hs : HookSt) (h : tokensFromDraws src hs) :
    tokensFromDraws src (subCallback src su next prev hs) := by
  cases su with
  | bool b => exact setRevision_tokens src hs h
  | pred f =>
    show tokensFromDraws src (if f next prev = true then setRevision src hs else hs)
    split
    · exact setRevision_tokens src hs h
    · exact h

/-- Every hook event keeps the token history aligned with the draws. -/
lemma runEvent_tokens {T : Type} (src : RandSrc) (su : ShouldUpd T)
    (e : HookEv T) (hs : HookSt) (h : tokensFromDraws src hs) :
    tokensFromDraws src (runEvent src su e hs) := by
  cases e with
  | assoc =>
    show tokensFromDraws src (effectSetup src su hs)
    rw [effectSetup_eq]
    split
    · split
      · exact h
      · exact setRevision_tokens src _ h
    · exact h
  | deassoc => exact h
  | notify next prev =>
    show tokensFromDraws src
      (if hs.subscribed = true then subCallback src su next prev hs else hs)
    split
    · exact subCallback_tokens src su next prev hs h
    · exact h

/-- Event sequences keep the token history aligned with the draws. -/
lemma runEvents_tokens {T : Type} (src : RandSrc) (su : ShouldUpd T)
    (evs : List (HookEv T)) :
    ∀ hs : HookSt, tokensFromDraws src hs →
      tokensFromDraws src (runEvents src su evs hs) := by
  induction evs with
  | nil => intro hs h; exact h
  | cons e evs ih =>
    intro hs h
    exact ih (runEvent src su e hs) (runEvent_tokens src su e hs h)

/-- The random source repeating `1/2` — a value `Math.random` can
legitimately produce twice in a row. -/
def halfSrc : RandSrc := ⟨fun _ => 1 / 2⟩

/-- Counterexample to C7: the render token is set by
`setRevision(Math.random())`; nothing makes it monotonic or fresh.  With a
source drawing `1/2` twice, the association forces one render on setup and
another on a notification, and the second token equals the first — not
distinct from every previous value of the association. -/
theorem render_token_repeat_counterexample :
    (0 ≤ halfSrc.rand 0 ∧ halfSrc.rand 0 < 1) ∧
    (runEvents halfSrc (.bool true) [.assoc, .notify (0 : Int) 0]
        mountState).revHistory = [1 / 2, 1 / 2] ∧
    ¬ List.Pairwise (· ≠ ·)
      (runEvents halfSrc (.bool true) [.assoc, .notify (0 : Int) 0]
        mountState).revHistory := by
  refine ⟨by norm_num [halfSrc], ?_, ?_⟩
  · simp [runEvents, runEvent, effectSetup, subCallback, setRevision,
      mountState, halfSrc, ShouldUpd.truthy]
  · simp [runEvents, runEvent, effectSetup, subCallback, setRevision,
      mountState, halfSrc, ShouldUpd.truthy]

/-- C7 amended: each forced re-render assigns the token a fresh
`Math.random()` draw; provided the source never repeats a value and draws
within `[0, 1)` (the codomain of `Math.random`), every forced render's
token differs from every other one and from the initial token `-1`.  The
adapter itself does not guarantee distinctness — it holds only as far as
the draws do. -/
theorem render_token_distinct_under_injective_draws {T : Type}
    (src : RandSrc) (su : ShouldUpd T) (evs : List (HookEv T))
    (hinj : Function.Injective src.rand)
    (hrange : ∀ k, 0 ≤ src.rand k ∧ src.rand k < 1) :
    List.Pairwise (· ≠ ·) (runEvents src su evs mountState).revHistory ∧
    ∀ r ∈ (runEvents src su evs mountState).revHistory,
      r ≠ mountState.revision := by
  have hwf : tokensFromDraws src (runEvents src su evs mountState) :=
    runEvents_tokens src su evs mountState rfl
  unfold tokensFromDraws at hwf
  rw [hwf]
  constructor
  · exact List.Nodup.map hinj (List.nodup_range _)
  · intro r hr
    obtain ⟨k, hk, hkr⟩ := List.mem_map.mp hr
    have h0 := (hrange k).1
    intro heq
    rw [← hkr, show mountState.revision = (-1 : Rat) from rfl] at heq
    rw [heq] at h0
    norm_num at h0

/-- An injective draw sequence within `[0, 1)`: `k` maps to
`1 - (k + 2)⁻¹`. -/
def decaySrc : RandSrc := ⟨fun k => 1 - ((k : Rat) + 2)⁻¹⟩

/-- The decaying source never repeats a draw. -/
lemma decaySrc_inj : Function.Injective decaySrc.rand := by
  intro a b h
  simp only [decaySrc] at h
  have h2 : ((a : Rat) + 2)⁻¹ = ((b : Rat) + 2)⁻¹ := by linarith
  have h3 : ((a : Rat) + 2) = (b : Rat) + 2 := inv_inj.mp h2
  have h4 : (a : Rat) = b := by linarith
  exact_mod_cast h4

/-- The decaying source draws within `[0, 1)`. -/
lemma decaySrc_range : ∀ k, 0 ≤ decaySrc.rand k ∧ decaySrc.rand k < 1 := by
  intro k
  have hk : (0 : Rat) ≤ (k : Rat) := Nat.cast_nonneg k
  have hpos : (0 : Rat) < (k : Rat) + 2 := by linarith
  have hinvpos : (0 : Rat) < ((k : Rat) + 2)⁻¹ := inv_pos.mpr hpos
  have hinvle : ((k : Rat) + 2)⁻¹ ≤ 1 := by
    rw [inv_le_one_iff₀]
    right
    linarith
  constructor
  · simp only [decaySrc]
    linarith
  · simp only [decaySrc]
    linarith

/-- Witness for the amended C7: with the never-repeating source, an
association followed by a notification produces pairwise-distinct tokens,
all different from the initial `-1`. -/
theorem render_token_distinct_witness :
    Function.Injective decaySrc.rand ∧
    (∀ k, 0 ≤ decaySrc.rand k ∧ decaySrc.rand k < 1) ∧
    List.Pairwise (· ≠ ·)
      (runEvents decaySrc (.bool true) [.assoc, .notify (0 : Int) 0]
        mountState).revHistory ∧
    ∀ r ∈ (runEvents decaySrc (.bool true) [.assoc, .notify (0 : Int) 0]
        mountState).revHistory, r ≠ mountState.revision :=
  ⟨decaySrc_inj, decaySrc_range,
    (render_token_distinct_under_injective_draws decaySrc (.bool true)
      [.assoc, .notify 0 0] decaySrc_inj decaySrc_range).1,
    (render_token_distinct_under_injective_draws decaySrc (.bool true)
      [.assoc, .notify 0 0] decaySrc_inj decaySrc_range).2⟩

/-- C9: the setter the hook returns is the container's `setState` bound to
that container (`boundStore` is the dependency), it keeps the same object
identity across repeated renders against the same store (the memo returns
the cached object and the cell state is untouched), and it changes exactly
when the store identity changes: rendering against a different store
yields a different bound object. -/
theorem bound_setter_identity_stable (sid sid2 : Nat) (hs : HookSt)
    (hne : sid2 ≠ sid) :
    (renderStep sid (renderStep sid hs).1).2 = (renderStep sid hs).2 ∧
    (renderStep sid (renderStep sid hs).1).1 = (renderStep sid hs).1 ∧
    ((renderStep sid hs).2).boundStore = sid ∧
    (renderStep sid2 (renderStep sid hs).1).2 ≠ (renderStep sid hs).2 := by
  cases hm : hs.memo with
  | none =>
    refine ⟨?_, ?_, ?_, ?_⟩ <;>
      simp [renderStep, hm, hne, Ne.symm hne, Bound.mk.injEq]
  | some p =>
    obtain ⟨dep, id⟩ := p
    by_cases hd : dep = sid
    · subst hd
      refine ⟨?_, ?_, ?_, ?_⟩ <;>
        simp [renderStep, hm, hne, Ne.symm hne, Bound.mk.injEq]
    · refine ⟨?_, ?_, ?_, ?_⟩ <;>
        simp [renderStep, hm, hd, hne, Ne.symm hne, Bound.mk.injEq]

/-- Witness for C9: a second render against store `0` returns the same
bound setter, bound to store `0`; a render against store `1` returns a
different one. -/
theorem bound_setter_identity_stable_witness :
    (1 : Nat) ≠ 0 ∧
    (renderStep 0 (renderStep 0 mountState).1).2 = (renderStep 0 mountState).2 ∧
    ((renderStep 0 mountState).2).boundStore = 0 ∧
    (renderStep 1 (renderStep 0 mountState).1).2 ≠ (renderStep 0 mountState).2 :=
  ⟨by decide,
    (bound_setter_identity_stable 0 1 mountState (by decide)).1,
    (bound_setter_identity_stable 0 1 mountState (by decide)).2.2.1,
    (bound_setter_identity_stable 0 1 mountState (by decide)).2.2.2⟩

end Groundstate
